import Mathlib

/-!
Shallow embedding of the `pingrs` sources (`src/icmp.rs`, `src/main.rs`).

Bytes are modelled as `Nat` (a received byte is `< 256`; the bytes the code
itself writes are produced `< 256` by construction).  The Rust `u32`
wrapping addition is modelled by an explicit `% 2 ^ 32`; the shifts
`x >> 16`, `x >> 8` and masks `x & 0xFFFF`, `x & 0xFF` on unsigned
integers are modelled by `/ 65536`, `/ 256`, `% 65536`, `% 256`.
The bit operators `buf[0] >> 4` and `buf[0] & 0x0F` of the receive loop
are kept as `>>>` and `&&&`.
-/

namespace Pingrs

/-- The word-summing loop of `checksum` (`src/icmp.rs` lines 3-10):
`sum` starts at 0; while at least two bytes remain, the 16-bit big-endian
word `data[0],data[1]` is added with `u32::wrapping_add`; a final lone byte
contributes `(byte as u32) << 8`. -/
def sumWords : List Nat → Nat → Nat
  | a :: b :: rest, sum => sumWords rest ((sum + (a * 256 + b)) % 4294967296)
  | [a], sum => (sum + a * 256) % 4294967296
  | [], sum => sum

/-- The same word sum without the `u32` wrap: specification-level total. -/
def wsum : List Nat → Nat
  | a :: b :: rest => (a * 256 + b) + wsum rest
  | [a] => a * 256
  | [] => 0

/-- The carry-folding loop of `checksum` (`src/icmp.rs` lines 11-13):
`while (sum >> 16) != 0 { sum = (sum & 0xFFFF) + (sum >> 16) }`. -/
def foldCarries (sum : Nat) : Nat :=
  if sum / 65536 = 0 then sum
  else foldCarries (sum % 65536 + sum / 65536)
  termination_by sum
  decreasing_by omega

/-- Number of iterations the carry-folding loop performs on `sum`. -/
def foldCount (sum : Nat) : Nat :=
  if sum / 65536 = 0 then 0
  else foldCount (sum % 65536 + sum / 65536) + 1
  termination_by sum
  decreasing_by omega

/-- `checksum` (`src/icmp.rs` lines 2-15): word sum, carry fold, then
`!(sum as u16)`, i.e. the one's complement of the low 16 bits. -/
def checksum (data : List Nat) : Nat :=
  65535 - foldCarries (sumWords data 0) % 65536

/-- `u16::to_be_bytes`: big-endian bytes of a 16-bit value. -/
def toBe16 (x : Nat) : List Nat :=
  [x / 256 % 256, x % 256]

/-- `build_echo_request` (`src/icmp.rs` lines 18-38): 8-byte ICMP header
`[8, 0, 0, 0] ++ ident.to_be_bytes() ++ seq.to_be_bytes()` followed by the
payload, then bytes 2-3 overwritten with the checksum of the whole buffer
(`pkt[2] = (csum >> 8) as u8; pkt[3] = (csum & 0xFF) as u8`). -/
def build_echo_request (ident seq : Nat) (payload : List Nat) : List Nat :=
  let pkt := [8, 0, 0, 0] ++ toBe16 ident ++ toBe16 seq ++ payload
  let csum := checksum pkt
  [8, 0, csum / 256 % 256, csum % 256] ++ toBe16 ident ++ toBe16 seq ++ payload

/-- IP-header skip of the receive loop (`src/main.rs` lines 129-134):
`if n >= 20 && (buf[0] >> 4) == 4 { (buf[0] & 0x0F) * 4 } else { 0 }`.
`buf.getD 0 0` reads `buf[0]` of the zero-initialised receive buffer. -/
def headerSkip (buf : List Nat) (n : Nat) : Nat :=
  if 20 ≤ n ∧ buf.getD 0 0 >>> 4 = 4 then (buf.getD 0 0 &&& 15) * 4 else 0

/-- Parsed view of an inbound datagram (fields read at
`src/main.rs` lines 139-142, plus the ICMP byte length `n - start`). -/
structure EchoReply where
  type : Nat
  code : Nat
  ident : Nat
  seq : Nat
  len : Nat
deriving DecidableEq, Repr

/-- Field extraction of the receive loop (`src/main.rs` lines 129-142):
compute the skip, `continue` (here `none`) when `n < start + 8`, otherwise
read type, code and the big-endian identifier and sequence words. -/
def tryParseEchoReply (buf : List Nat) (n : Nat) : Option EchoReply :=
  let start := headerSkip buf n
  if n < start + 8 then none
  else some {
    type := buf.getD start 0
    code := buf.getD (start + 1) 0
    ident := buf.getD (start + 4) 0 * 256 + buf.getD (start + 5) 0
    seq := buf.getD (start + 6) 0 * 256 + buf.getD (start + 7) 0
    len := n - start }

/-- What the receive loop does with one datagram: stop with a reply of the
given ICMP byte length, or keep polling. -/
inductive RecvAction where
  | reply (len : Nat) : RecvAction
  | keepPolling : RecvAction
deriving DecidableEq, Repr

/-- The match step of the receive loop (`src/main.rs` lines 138-153):
a datagram whose parsed fields satisfy
`icmp_type == 0 && icmp_code == 0 && r_id == ident && r_seq == seq`
stops the poll (`break`) recording `n - start` bytes; anything else is
dropped and polling continues. -/
def handleDatagram (buf : List Nat) (n ident seq : Nat) : RecvAction :=
  match tryParseEchoReply buf n with
  | none => RecvAction.keepPolling
  | some r =>
    if r.type = 0 ∧ r.code = 0 ∧ r.ident = ident ∧ r.seq = seq then
      RecvAction.reply r.len
    else RecvAction.keepPolling

/-- The receive phase of one probe, over the list of datagrams that arrive
before the deadline: the first matching one ends the poll with its ICMP
byte length; running out of datagrams models the deadline expiring. -/
def receivePhase (datagrams : List (List Nat × Nat)) (ident seq : Nat) : Option Nat :=
  match datagrams with
  | [] => none
  | (buf, n) :: rest =>
    match handleDatagram buf n ident seq with
    | RecvAction.reply len => some len
    | RecvAction.keepPolling => receivePhase rest ident seq

/-- Statistics state of the run (`src/main.rs` lines 66-68):
`transmitted`, `received_count`, `rtts`.  RTT values are abstract. -/
structure RunStats where
  transmitted : Nat
  received_count : Nat
  rtts : List Nat
deriving DecidableEq, Repr

/-- Result of `sock.send_to` for one probe. -/
inductive SendResult where
  | ok : SendResult
  | err : SendResult
deriving DecidableEq, Repr

/-- Per-probe outcome (spec's `ProbeOutcome`). -/
inductive ProbeOutcome where
  | Replied (rtt len : Nat) : ProbeOutcome
  | Lost : ProbeOutcome
deriving DecidableEq, Repr

/-- One probe of the outer loop (`src/main.rs` lines 89-156):
`transmitted` is incremented for the attempt; a send error skips the
receive phase; otherwise the receive phase runs and a match increments
`received_count` and appends the RTT. -/
def probeStep (st : RunStats) (sendRes : SendResult)
    (datagrams : List (List Nat × Nat)) (ident seq rtt : Nat) :
    RunStats × ProbeOutcome :=
  match sendRes with
  | SendResult.err =>
    (RunStats.mk (st.transmitted + 1) st.received_count st.rtts, ProbeOutcome.Lost)
  | SendResult.ok =>
    match receivePhase datagrams ident seq with
    | some len =>
      (RunStats.mk (st.transmitted + 1) (st.received_count + 1) (st.rtts ++ [rtt]),
        ProbeOutcome.Replied rtt len)
    | none =>
      (RunStats.mk (st.transmitted + 1) st.received_count st.rtts, ProbeOutcome.Lost)

/-- Sequence update between probes (`src/main.rs` lines 164-165):
`seq = seq.wrapping_add(1); if seq == 0 { seq = 1; }`. -/
def nextSeq (seq : Nat) : Nat :=
  let t := (seq + 1) % 65536
  if t = 0 then 1 else t

/-- Sequence number used by probe `k`, starting from `let mut seq = 1u16`
(`src/main.rs` line 62) and stepping with `nextSeq`. -/
def seqAt : Nat → Nat
  | 0 => 1
  | k + 1 => nextSeq (seqAt k)

/-- Environment input for one probe: the send outcome, the datagrams the
socket delivers during the poll, and the probe's RTT value. -/
structure ProbeInput where
  sendRes : SendResult
  datagrams : List (List Nat × Nat)
  rtt : Nat

/-- The outer loop (`src/main.rs` lines 70-177) folded over the inputs of
the probes it attempts, threading statistics and the sequence number. -/
def runFrom (st : RunStats) (ident seq : Nat) : List ProbeInput → RunStats
  | [] => st
  | p :: ps =>
    runFrom (probeStep st p.sendRes p.datagrams ident seq p.rtt).1 ident (nextSeq seq) ps

/-! ### Helper lemmas about the checksum -/

theorem foldCarries_small {s : Nat} (h : s < 65536) : foldCarries s = s := by
  unfold foldCarries
  simp [Nat.div_eq_of_lt h]

theorem foldCarries_lt (s : Nat) : foldCarries s < 65536 := by
  unfold foldCarries
  split
  · omega
  · exact foldCarries_lt (s % 65536 + s / 65536)
  termination_by s
  decreasing_by omega

theorem foldCarries_closed (s : Nat) (h : s ≠ 0) : foldCarries s = (s - 1) % 65535 + 1 := by
  unfold foldCarries
  split
  · omega
  · rw [foldCarries_closed (s % 65536 + s / 65536) (by omega)]
    omega
  termination_by s
  decreasing_by omega

theorem sumWords_eq : ∀ (data : List Nat) (s : Nat), s < 4294967296 →
    sumWords data s = (s + wsum data) % 4294967296
  | [], s, hs => by
    simp [sumWords, wsum, Nat.mod_eq_of_lt hs]
  | [a], s, _ => by
    simp [sumWords, wsum]
  | a :: b :: rest, s, _ => by
    rw [sumWords, sumWords_eq rest _ (Nat.mod_lt _ (by norm_num)), wsum]
    rw [Nat.mod_add_mod]
    ring_nf

theorem wsum_cons8 (b0 b1 b2 b3 b4 b5 b6 b7 : Nat) (p : List Nat) :
    wsum (b0 :: b1 :: b2 :: b3 :: b4 :: b5 :: b6 :: b7 :: p) =
      (b0 * 256 + b1) + (b2 * 256 + b3) + (b4 * 256 + b5) + (b6 * 256 + b7) + wsum p := by
  rw [wsum, wsum, wsum, wsum]
  ring

theorem checksum_fill (i1 i2 s1 s2 : Nat) (payload : List Nat) :
    checksum (8 :: 0 :: checksum (8 :: 0 :: 0 :: 0 :: i1 :: i2 :: s1 :: s2 :: payload) / 256 % 256 ::
      checksum (8 :: 0 :: 0 :: 0 :: i1 :: i2 :: s1 :: s2 :: payload) % 256 ::
      i1 :: i2 :: s1 :: s2 :: payload) = 0 := by
  set c := checksum (8 :: 0 :: 0 :: 0 :: i1 :: i2 :: s1 :: s2 :: payload) with hc
  have hclt : c < 65536 := by
    rw [hc]
    unfold checksum
    omega
  have hw : wsum (8 :: 0 :: c / 256 % 256 :: c % 256 :: i1 :: i2 :: s1 :: s2 :: payload) =
      wsum (8 :: 0 :: 0 :: 0 :: i1 :: i2 :: s1 :: s2 :: payload) + c := by
    rw [wsum_cons8, wsum_cons8]
    omega
  unfold checksum
  rw [sumWords_eq _ 0 (by norm_num), Nat.zero_add, hw]
  unfold checksum at hc
  rw [sumWords_eq _ 0 (by norm_num), Nat.zero_add] at hc
  set T0 := wsum (8 :: 0 :: 0 :: 0 :: i1 :: i2 :: s1 :: s2 :: payload) with hT0
  have hmod : (T0 + c) % 4294967296 = (T0 % 4294967296 + c) % 4294967296 := by
    rw [Nat.mod_add_mod]
  rw [hmod]
  set S0 := T0 % 4294967296 with hS0
  have hS0lt : S0 < 4294967296 := Nat.mod_lt _ (by norm_num)
  by_cases h0 : S0 = 0
  · rw [h0] at hc ⊢
    rw [foldCarries_small (by norm_num)] at hc
    have hc65535 : c = 65535 := by omega
    rw [hc65535]
    have h65535 : (65535 : Nat) % 4294967296 = 65535 := by norm_num
    rw [h65535, foldCarries_small (show (65535 : Nat) < 65536 by norm_num)]
  · rw [foldCarries_closed S0 h0] at hc
    have hlt : S0 + c < 4294967296 := by omega
    rw [Nat.mod_eq_of_lt hlt]
    have hne : S0 + c ≠ 0 := by omega
    rw [foldCarries_closed _ hne]
    omega

/-! ### Claim theorems -/

/-- C1: for every identifier, sequence number and payload, recomputing the
RFC-792 checksum over the complete packet returned by `build_echo_request`
(checksum field already filled in at bytes 2-3) yields 0. -/
theorem C1_checksum_self_verifying (ident seq : Nat) (payload : List Nat) :
    checksum (build_echo_request ident seq payload) = 0 := by
  have h := checksum_fill (ident / 256 % 256) (ident % 256) (seq / 256 % 256) (seq % 256) payload
  simpa [build_echo_request, toBe16] using h

theorem wsum_pad : ∀ (pre : List Nat) (b : Nat), pre.length % 2 = 0 →
    wsum (pre ++ [b]) = wsum (pre ++ [b, 0])
  | [], b, _ => by simp [wsum]
  | [a], b, h => by simp at h
  | a :: a2 :: rest, b, h => by
    have ih := wsum_pad rest b (by simp at h; omega)
    show wsum (a :: a2 :: (rest ++ [b])) = wsum (a :: a2 :: (rest ++ [b, 0]))
    rw [wsum, wsum, ih]

theorem checksum_pad (pre : List Nat) (b : Nat) (h : pre.length % 2 = 0) :
    checksum (pre ++ [b]) = checksum (pre ++ [b, 0]) := by
  unfold checksum
  rw [sumWords_eq _ 0 (by norm_num), sumWords_eq _ 0 (by norm_num), wsum_pad pre b h]

theorem checksum_allzero8 : checksum (List.replicate 8 0) = 65535 := by
  have h1 : sumWords (List.replicate 8 0) 0 = 0 := by decide
  unfold checksum
  rw [h1, foldCarries_small (by norm_num)]

/-- C6: the checksum sums big-endian 16-bit words, a trailing odd byte
counts as the high byte of a final word (so a trailing `[b]` checksums the
same as `[b, 0]`), and an all-zero 8-byte buffer checksums to `0xFFFF`;
in particular `checksum [0xAB] = checksum [0xAB, 0x00]`. -/
theorem C6_checksum_algorithm :
    (∀ (pre : List Nat) (b : Nat), pre.length % 2 = 0 →
      checksum (pre ++ [b]) = checksum (pre ++ [b, 0]))
    ∧ checksum [171] = checksum [171, 0]
    ∧ checksum (List.replicate 8 0) = 65535 :=
  ⟨checksum_pad, checksum_pad [] 171 (by simp), checksum_allzero8⟩

/-- C6 witness: the odd-padding clause at the concrete input `[0xAB]`. -/
theorem C6_checksum_algorithm_witness :
    checksum ([8, 0] ++ [171]) = checksum ([8, 0] ++ [171, 0]) :=
  C6_checksum_algorithm.1 [8, 0] 171 (by decide)

theorem foldCount_le_two (s : Nat) (h : s < 4294967296) : foldCount s ≤ 2 := by
  unfold foldCount
  split
  · omega
  · unfold foldCount
    split
    · omega
    · unfold foldCount
      split
      · omega
      · omega

/-- C10: the checksum is total — the word-summing loop keeps the running
sum below `2^32`, and on any such sum the carry-folding loop stops after at
most two iterations, leaving a value below `2^16`. -/
theorem C10_checksum_total (data : List Nat) :
    sumWords data 0 < 4294967296 ∧ foldCount (sumWords data 0) ≤ 2 ∧
    foldCarries (sumWords data 0) < 65536 := by
  have h := sumWords_eq data 0 (by norm_num)
  have h1 : sumWords data 0 < 4294967296 := by
    rw [h]
    exact Nat.mod_lt _ (by norm_num)
  exact ⟨h1, foldCount_le_two _ h1, foldCarries_lt _⟩

/-- C8: `build_echo_request` returns a buffer of length `8 + |payload|`
with type byte 8, code byte 0, the identifier big-endian at bytes 4-5, the
sequence big-endian at bytes 6-7, and the payload unchanged from byte 8. -/
theorem C8_build_structure (ident seq : Nat) (payload : List Nat)
    (hi : ident < 65536) (hs : seq < 65536) :
    (build_echo_request ident seq payload).length = 8 + payload.length ∧
    (build_echo_request ident seq payload).getD 0 0 = 8 ∧
    (build_echo_request ident seq payload).getD 1 0 = 0 ∧
    (build_echo_request ident seq payload).getD 4 0 = ident / 256 ∧
    (build_echo_request ident seq payload).getD 5 0 = ident % 256 ∧
    (build_echo_request ident seq payload).getD 6 0 = seq / 256 ∧
    (build_echo_request ident seq payload).getD 7 0 = seq % 256 ∧
    (build_echo_request ident seq payload).drop 8 = payload := by
  unfold build_echo_request toBe16
  simp only [List.cons_append, List.nil_append]
  refine ⟨by simp; omega, by simp, by simp, ?_, by simp, ?_, by simp, by simp⟩
  · simp [List.getD]
    omega
  · simp [List.getD]
    omega

/-- C8 witness: the spec's concrete packet
`buildEchoRequest(0x1234, 0x0001, b"abc")`. -/
theorem C8_build_structure_witness :
    (build_echo_request 4660 1 [97, 98, 99]).length = 11 ∧
    (build_echo_request 4660 1 [97, 98, 99]).getD 0 0 = 8 ∧
    (build_echo_request 4660 1 [97, 98, 99]).getD 1 0 = 0 ∧
    (build_echo_request 4660 1 [97, 98, 99]).getD 4 0 = 18 ∧
    (build_echo_request 4660 1 [97, 98, 99]).getD 5 0 = 52 ∧
    (build_echo_request 4660 1 [97, 98, 99]).getD 6 0 = 0 ∧
    (build_echo_request 4660 1 [97, 98, 99]).getD 7 0 = 1 ∧
    (build_echo_request 4660 1 [97, 98, 99]).drop 8 = [97, 98, 99] := by
  obtain ⟨h1, h2, h3, h4, h5, h6, h7, h8⟩ :=
    C8_build_structure 4660 1 [97, 98, 99] (by norm_num) (by norm_num)
  refine ⟨by rw [h1]; decide, h2, h3, by rw [h4], by rw [h5], by rw [h6], by rw [h7], h8⟩

/-- C2: the header skip is `(buf[0] & 0x0F) * 4` exactly when `n ≥ 20` and
the top nibble of `buf[0]` is 4, else 0; a buffer with `n < skip + 8` is
"not a reply" (`none`, the loop just continues); in particular a 24-byte
buffer starting with `0x45` (skip 20, 24 < 28) is not a reply. -/
theorem C2_header_skip (buf : List Nat) (n : Nat) :
    (headerSkip buf n =
      if 20 ≤ n ∧ buf.getD 0 0 / 16 = 4 then buf.getD 0 0 % 16 * 4 else 0)
    ∧ (n < headerSkip buf n + 8 → tryParseEchoReply buf n = none)
    ∧ (∀ ident seq, n < headerSkip buf n + 8 →
        handleDatagram buf n ident seq = RecvAction.keepPolling)
    ∧ (buf.getD 0 0 = 69 → n = 24 → tryParseEchoReply buf n = none) := by
  have hshift : buf.getD 0 0 >>> 4 = buf.getD 0 0 / 16 :=
    Nat.shiftRight_eq_div_pow (buf.getD 0 0) 4
  have hand : buf.getD 0 0 &&& 15 = buf.getD 0 0 % 16 :=
    Nat.and_pow_two_sub_one_eq_mod (buf.getD 0 0) 4
  refine ⟨?_, ?_, ?_, ?_⟩
  · unfold headerSkip
    simp only [hshift, hand]
  · intro h
    simp [tryParseEchoReply, h]
  · intro ident seq h
    simp [handleDatagram, tryParseEchoReply, h]
  · intro h1 h2
    subst h2
    have ha : (69 : Nat) >>> 4 = 4 := by decide
    have hb : (69 : Nat) &&& 15 = 5 := by decide
    unfold tryParseEchoReply headerSkip
    rw [h1]
    simp only [ha, hb]
    norm_num

/-- C2 witness: a concrete 24-byte buffer whose first byte is `0x45`. -/
theorem C2_header_skip_witness :
    tryParseEchoReply (69 :: List.replicate 23 0) 24 = none :=
  (C2_header_skip (69 :: List.replicate 23 0) 24).2.2.2 rfl rfl

/-- C3 counterexample: on a 19-byte buffer whose first byte is `0x45` the
parser does **not** return "not a reply" — 19 is below the 20-byte
IPv4-header threshold, so skip = 0 and `19 ≥ 8` lets the field extraction
run (the claim says the result is "not a reply"). -/
theorem C3_counterexample :
    tryParseEchoReply (69 :: List.replicate 18 0) 19 ≠ none := by decide

/-- C3 amended: on a buffer of received length 19 with first byte `0x45`,
the skip is 0 (below the 20-byte threshold), the parser extracts fields
from offset 0 — yielding type `0x45` — and, since the type is not 0, the
receive loop discards the datagram and keeps polling. -/
theorem C3_short_buffer_discarded (rest : List Nat) (ident seq : Nat) :
    headerSkip (69 :: rest) 19 = 0 ∧
    (∃ r, tryParseEchoReply (69 :: rest) 19 = some r ∧ r.type = 69) ∧
    handleDatagram (69 :: rest) 19 ident seq = RecvAction.keepPolling := by
  have hskip : headerSkip (69 :: rest) 19 = 0 := by
    unfold headerSkip
    rw [if_neg]
    rintro ⟨h, _⟩
    omega
  have hparse : tryParseEchoReply (69 :: rest) 19 =
      some (EchoReply.mk 69 (rest.getD 0 0) (rest.getD 3 0 * 256 + rest.getD 4 0)
        (rest.getD 5 0 * 256 + rest.getD 6 0) 19) := by
    unfold tryParseEchoReply
    rw [hskip]
    norm_num
  refine ⟨hskip, ⟨_, hparse, rfl⟩, ?_⟩
  simp [handleDatagram, hparse]

theorem tryParse_len (buf : List Nat) (n : Nat) (r : EchoReply)
    (h : tryParseEchoReply buf n = some r) : r.len = n - headerSkip buf n := by
  simp only [tryParseEchoReply] at h
  split at h
  · exact absurd h (by simp)
  · injection h with h1
    rw [← h1]

/-- C4: during the receive phase, a datagram stops the poll with a reply
(of recorded byte length `n - skip`) exactly when it parses with type 0,
code 0 and the run's identifier and the probe's sequence; any other
datagram leaves the poll running on the remaining datagrams. -/
theorem C4_match_iff (buf : List Nat) (n ident seq len : Nat)
    (rest : List (List Nat × Nat)) :
    (handleDatagram buf n ident seq = RecvAction.reply len ↔
      ∃ r, tryParseEchoReply buf n = some r ∧
        r.type = 0 ∧ r.code = 0 ∧ r.ident = ident ∧ r.seq = seq ∧ len = r.len)
    ∧ (handleDatagram buf n ident seq = RecvAction.reply len →
        len = n - headerSkip buf n)
    ∧ (handleDatagram buf n ident seq = RecvAction.reply len →
        receivePhase ((buf, n) :: rest) ident seq = some len)
    ∧ (handleDatagram buf n ident seq = RecvAction.keepPolling →
        receivePhase ((buf, n) :: rest) ident seq = receivePhase rest ident seq) := by
  have hmp : handleDatagram buf n ident seq = RecvAction.reply len →
      ∃ r, tryParseEchoReply buf n = some r ∧
        r.type = 0 ∧ r.code = 0 ∧ r.ident = ident ∧ r.seq = seq ∧ len = r.len := by
    intro h
    unfold handleDatagram at h
    split at h
    · exact absurd h (by simp)
    · next r hp =>
      split at h
      · next hcond =>
        obtain ⟨h1, h2, h3, h4⟩ := hcond
        refine ⟨r, hp, h1, h2, h3, h4, ?_⟩
        injection h with h5
        omega
      · exact absurd h (by simp)
  refine ⟨⟨hmp, ?_⟩, ?_, ?_, ?_⟩
  · rintro ⟨r, hp, h1, h2, h3, h4, h5⟩
    simp [handleDatagram, hp, h1, h2, h3, h4, h5]
  · intro h
    obtain ⟨r, hp, _, _, _, _, h5⟩ := hmp h
    rw [h5, tryParse_len buf n r hp]
  · intro h
    simp [receivePhase, h]
  · intro h
    simp [receivePhase, h]

/-- C4 witness: a concrete matching Echo Reply datagram (type 0, code 0,
identifier `0x1234`, sequence 7, no IP header) stops the poll. -/
theorem C4_match_iff_witness :
    handleDatagram [0, 0, 0, 0, 18, 52, 0, 7] 8 4660 7 = RecvAction.reply 8 :=
  ((C4_match_iff [0, 0, 0, 0, 18, 52, 0, 7] 8 4660 7 8 []).1).2
    ⟨EchoReply.mk 0 0 4660 7 8, by decide, rfl, rfl, rfl, rfl, rfl⟩

theorem seqAt_closed (k : Nat) : seqAt k = k % 65535 + 1 := by
  induction k with
  | zero => rfl
  | succ k ih =>
    show nextSeq (seqAt k) = (k + 1) % 65535 + 1
    rw [ih]
    simp only [nextSeq]
    split <;> omega

/-- C5: probe sequence numbers start at 1, increment by 1 per probe, wrap
back to 1 after 65535, and are never 0. -/
theorem C5_sequence_never_zero :
    seqAt 0 = 1 ∧ ∀ k : Nat,
      seqAt k ≠ 0 ∧ 1 ≤ seqAt k ∧ seqAt k ≤ 65535 ∧
      (seqAt k < 65535 → seqAt (k + 1) = seqAt k + 1) ∧
      (seqAt k = 65535 → seqAt (k + 1) = 1) := by
  refine ⟨rfl, fun k => ?_⟩
  have h1 := seqAt_closed k
  have h2 := seqAt_closed (k + 1)
  exact ⟨by omega, by omega, by omega, fun h => by omega, fun h => by omega⟩

/-- C5 witness: the second probe uses sequence 2, and sequence numbers at
probes 0 and 1 are nonzero. -/
theorem C5_sequence_never_zero_witness :
    seqAt 0 + 1 = seqAt 0 + 1 ∧ seqAt 1 = seqAt 0 + 1 ∧ seqAt 1 ≠ 0 := by
  have h := (C5_sequence_never_zero).2 0
  have hlt : seqAt 0 < 65535 := by decide
  have h2 := h.2.2.2.1 hlt
  exact ⟨rfl, h2, ((C5_sequence_never_zero).2 1).1⟩

/-- C7: a probe whose send fails has outcome `Lost`, its receive phase is
never entered (the delivered datagrams are irrelevant), `transmitted` is
still incremented, `received_count` and the RTT list are unchanged, and
the run goes on to the next probe. -/
theorem C7_send_failure (st : RunStats) (datagrams : List (List Nat × Nat))
    (ident seq rtt : Nat) (ps : List ProbeInput) :
    (probeStep st SendResult.err datagrams ident seq rtt).2 = ProbeOutcome.Lost ∧
    (probeStep st SendResult.err datagrams ident seq rtt).1.transmitted = st.transmitted + 1 ∧
    (probeStep st SendResult.err datagrams ident seq rtt).1.received_count = st.received_count ∧
    (probeStep st SendResult.err datagrams ident seq rtt).1.rtts = st.rtts ∧
    (∀ datagrams2, probeStep st SendResult.err datagrams ident seq rtt =
      probeStep st SendResult.err datagrams2 ident seq rtt) ∧
    runFrom st ident seq (ProbeInput.mk SendResult.err datagrams rtt :: ps) =
      runFrom (RunStats.mk (st.transmitted + 1) st.received_count st.rtts) ident (nextSeq seq) ps :=
  ⟨rfl, rfl, rfl, rfl, fun _ => rfl, rfl⟩

theorem probeStep_stats (st : RunStats) (sr : SendResult)
    (d : List (List Nat × Nat)) (ident seq rtt : Nat) :
    (probeStep st sr d ident seq rtt).1.transmitted = st.transmitted + 1 ∧
    ((probeStep st sr d ident seq rtt).1.received_count = st.received_count ∧
        (probeStep st sr d ident seq rtt).1.rtts = st.rtts ∨
      (probeStep st sr d ident seq rtt).1.received_count = st.received_count + 1 ∧
        (probeStep st sr d ident seq rtt).1.rtts = st.rtts ++ [rtt]) := by
  cases sr with
  | err => exact ⟨rfl, Or.inl ⟨rfl, rfl⟩⟩
  | ok =>
    cases hrp : receivePhase d ident seq with
    | none => simp [probeStep, hrp]
    | some len => simp [probeStep, hrp]

theorem runFrom_invariant : ∀ (inputs : List ProbeInput) (st : RunStats) (ident seq : Nat),
    st.received_count ≤ st.transmitted → st.rtts.length = st.received_count →
    (runFrom st ident seq inputs).received_count ≤ (runFrom st ident seq inputs).transmitted ∧
    (runFrom st ident seq inputs).rtts.length = (runFrom st ident seq inputs).received_count
  | [], _, _, _, h1, h2 => ⟨h1, h2⟩
  | p :: ps, st, ident, seq, h1, h2 => by
    obtain ⟨ht, hOr⟩ := probeStep_stats st p.sendRes p.datagrams ident seq p.rtt
    show ((runFrom (probeStep st p.sendRes p.datagrams ident seq p.rtt).1
        ident (nextSeq seq) ps).received_count ≤ _) ∧ _
    apply runFrom_invariant ps _ ident (nextSeq seq)
    · rcases hOr with ⟨hr, _⟩ | ⟨hr, _⟩ <;> omega
    · rcases hOr with ⟨hr, hl⟩ | ⟨hr, hl⟩
      · rw [hr, hl, h2]
      · rw [hr, hl]
        simp [h2]

/-- C9: starting from the initial statistics, at every outer-loop boundary
`received_count ≤ transmitted` and the RTT list has exactly
`received_count` entries; each probe increments `transmitted` exactly once
and `received_count` at most once. -/
theorem C9_stats_invariant (inputs : List ProbeInput) (ident : Nat) :
    ((runFrom (RunStats.mk 0 0 []) ident 1 inputs).received_count ≤
      (runFrom (RunStats.mk 0 0 []) ident 1 inputs).transmitted ∧
     (runFrom (RunStats.mk 0 0 []) ident 1 inputs).rtts.length =
      (runFrom (RunStats.mk 0 0 []) ident 1 inputs).received_count) ∧
    ∀ (st : RunStats) (sr : SendResult) (d : List (List Nat × Nat)) (seq rtt : Nat),
      (probeStep st sr d ident seq rtt).1.transmitted = st.transmitted + 1 ∧
      ((probeStep st sr d ident seq rtt).1.received_count = st.received_count ∨
        (probeStep st sr d ident seq rtt).1.received_count = st.received_count + 1) := by
  refine ⟨runFrom_invariant inputs _ ident 1 (by simp) rfl, fun st sr d seq rtt => ?_⟩
  obtain ⟨ht, hOr⟩ := probeStep_stats st sr d ident seq rtt
  exact ⟨ht, hOr.imp And.left And.left⟩

end Pingrs
